import Mathlib

set_option linter.unusedVariables false

/-!
Verification of the character-reference decoding subsystem of the
`gosub-browser` HTML tokenizer (`src/html5_parser/consume_char_refs.rs`).

The Rust code is embedded shallowly: the tokenizer state is a record of an
input cursor (list of scalar values plus a position), the consume buffer,
and the list of reported parse errors.  Each Rust method becomes a Lean
function on that record.  The two static tables
(`TOKEN_NAMED_CHARS` from `token_named_characters.rs` and
`TOKEN_REPLACEMENTS` from `token_replacements.rs`) are not part of the
given source tree and are modelled from the specification, as noted in
their doc comments.

Note on the source: the body of `consume_anything_else` does not compile
as Rust (line 223 `let mut captured: String::new(); None;`, line 232
`Ok(string::new())`, and line 237 passes `char` where `&char` is
expected).  The embedding follows the only evident reading of those three
lines (`let mut captured = String::new();`, `Ok(String::new())`,
`contains(&c.unwrap())`); everything else is translated literally,
including its alternating outer/inner reads.
-/

namespace Gosub

/-- Input cursor over decoded Unicode scalar values (models `InputStream`):
a list of characters plus a cursor position. -/
structure InputStream where
  input : List Char
  pos : Nat
deriving Repr, DecidableEq

/-- Tokenizer state visible to the character-reference decoder: the stream,
the consume buffer, and the reported parse errors (diagnostic sink). -/
structure Tokenizer where
  stream : InputStream
  buffer : List Char
  errors : List String
deriving Repr, DecidableEq

/-- Models `InputStream::read_char`: return the scalar at the cursor and advance;
at end of input return `none` without moving. -/
def InputStream.read_char (s : InputStream) : Option Char × InputStream :=
  match s.input.get? s.pos with
  | some c => (some c, { s with pos := s.pos + 1 })
  | none => (none, s)

/-- Models `InputStream::unread`: push back exactly one previously read scalar. -/
def InputStream.unread (s : InputStream) : InputStream :=
  { s with pos := s.pos - 1 }

/-- Models `InputStream::look_ahead(k)`: peek without advancing. -/
def InputStream.look_ahead (s : InputStream) (k : Nat) : Option Char :=
  s.input.get? (s.pos + k)

/-- Models `InputStream::tell`. -/
def InputStream.tell (s : InputStream) : Nat := s.pos

/-- Models `InputStream::seek`. -/
def InputStream.seek (s : InputStream) (p : Nat) : InputStream :=
  { s with pos := p }

/-- Models `Tokenizer::consume`: append one scalar to the consume buffer. -/
def Tokenizer.consume (t : Tokenizer) (c : Char) : Tokenizer :=
  { t with buffer := t.buffer ++ [c] }

/-- Models `Tokenizer::consume_string`: append a string to the consume buffer. -/
def Tokenizer.consume_string (t : Tokenizer) (str : String) : Tokenizer :=
  { t with buffer := t.buffer ++ str.data }

/-- Models `Tokenizer::clear_consume_buffer`. -/
def Tokenizer.clear_consume_buffer (t : Tokenizer) : Tokenizer :=
  { t with buffer := [] }

/-- Models `Tokenizer::get_consumed_str`. -/
def Tokenizer.get_consumed_str (t : Tokenizer) : String :=
  String.mk t.buffer

/-- Models `Tokenizer::parse_error`: record a non-fatal diagnostic. -/
def Tokenizer.parse_error (t : Tokenizer) (msg : String) : Tokenizer :=
  { t with errors := t.errors ++ [msg] }

/-- Modelled from the spec: the tokenizer constants `CHAR_TAB`, `CHAR_LF`,
`CHAR_FF`, `CHAR_SPACE`, `CHAR_REPLACEMENT` live in `tokenizer.rs`, which
is not part of the given source tree; the spec names them tab, line-feed,
form-feed, space and the standard replacement character. -/
def CHAR_TAB : Char := '\t'

def CHAR_LF : Char := '\n'

def CHAR_FF : Char := '\x0C'

def CHAR_SPACE : Char := ' '

def CHAR_REPLACEMENT : Char := '�'

/-- Models `char::is_ascii_digit`. -/
def is_ascii_digit (c : Char) : Bool :=
  decide ('0' ≤ c ∧ c ≤ '9')

/-- Models `char::is_ascii_hexdigit`. -/
def is_ascii_hexdigit (c : Char) : Bool :=
  is_ascii_digit c || decide ('a' ≤ c ∧ c ≤ 'f') || decide ('A' ≤ c ∧ c ≤ 'F')

/-- Numeric value of one ASCII digit or hex digit. -/
def hex_digit_val (c : Char) : Nat :=
  if is_ascii_digit c then c.toNat - '0'.toNat
  else if decide ('a' ≤ c ∧ c ≤ 'f') then c.toNat - 'a'.toNat + 10
  else c.toNat - 'A'.toNat + 10

/-- Integer value of a digit run in the given radix. -/
def digits_val (radix : Nat) (ds : List Char) : Nat :=
  ds.foldl (fun a c => a * radix + hex_digit_val c) 0

/-- Models `u32::from_str_radix` combined with the source's `Err(_) => 0` arm
(line 150-153): the digit run fed to it is non-empty and valid for the
radix, so the only error case is u32 overflow, which the source maps
to 0. -/
def from_str_radix_u32 (ds : List Char) (radix : Nat) : Nat :=
  if digits_val radix ds < 4294967296 then digits_val radix ds else 0

/-- Modelled from the spec: `TOKEN_REPLACEMENTS` from
`token_replacements.rs` is not part of the given source tree.  The spec
fixes it as an immutable mapping whose domain is exactly the 32 integers
0x80-0x9F, mapping each to its corrected scalar value
(Windows-1252-compatibility table). -/
def TOKEN_REPLACEMENTS_get (n : Nat) : Option Char :=
  if n < 0x80 ∨ 0x9F < n then none
  else some (
    if n = 0x80 then '€' else if n = 0x81 then '\u0081'
    else if n = 0x82 then '‚' else if n = 0x83 then 'ƒ'
    else if n = 0x84 then '„' else if n = 0x85 then '…'
    else if n = 0x86 then '†' else if n = 0x87 then '‡'
    else if n = 0x88 then 'ˆ' else if n = 0x89 then '‰'
    else if n = 0x8A then 'Š' else if n = 0x8B then '‹'
    else if n = 0x8C then 'Œ' else if n = 0x8D then '\u008D'
    else if n = 0x8E then 'Ž' else if n = 0x8F then '\u008F'
    else if n = 0x90 then '\u0090' else if n = 0x91 then '‘'
    else if n = 0x92 then '’' else if n = 0x93 then '“'
    else if n = 0x94 then '”' else if n = 0x95 then '•'
    else if n = 0x96 then '–' else if n = 0x97 then '—'
    else if n = 0x98 then '˜' else if n = 0x99 then '™'
    else if n = 0x9A then 'š' else if n = 0x9B then '›'
    else if n = 0x9C then 'œ' else if n = 0x9D then '\u009D'
    else if n = 0x9E then 'ž' else 'Ÿ')

/-- The singleton codepoints listed in `in_reserved_number_range`
(lines 195-201), kept verbatim. -/
def reserved_singletons : List Nat :=
  [0x000B, 0xFFFE, 0xFFFF, 0x1FFFE, 0x1FFFF, 0x2FFFE, 0x2FFFF, 0x3FFFE, 0x3FFFF,
   0x4FFFE, 0x4FFFF, 0x5FFFE, 0x5FFFF, 0x6FFFE, 0x6FFFF, 0x7FFFE, 0x7FFFF,
   0x8FFFE, 0x8FFFF, 0x9FFFE, 0x9FFFF, 0xAFFFE, 0xAFFFF, 0xBFFFE, 0xBFFFF,
   0xCFFFE, 0xCFFFF, 0xDFFFE, 0xDFFFF, 0xEFFFE, 0xEFFFF, 0xFFFFE, 0xFFFFF,
   0x10FFFE, 0x10FFFF]

/-- Models `Tokenizer::in_reserved_number_range` (lines 184-206), translated
verbatim, including the five duplicated `0x000E..=0x001F` tests of the
source. -/
def in_reserved_number_range (codepoint : Nat) : Bool :=
  decide ((0x0001 ≤ codepoint ∧ codepoint ≤ 0x0008) ∨
    (0x000E ≤ codepoint ∧ codepoint ≤ 0x001F) ∨
    (0x007F ≤ codepoint ∧ codepoint ≤ 0x009F) ∨
    (0xFDD0 ≤ codepoint ∧ codepoint ≤ 0xFDEF) ∨
    (0x000E ≤ codepoint ∧ codepoint ≤ 0x001F) ∨
    (0x000E ≤ codepoint ∧ codepoint ≤ 0x001F) ∨
    (0x000E ≤ codepoint ∧ codepoint ≤ 0x001F) ∨
    (0x000E ≤ codepoint ∧ codepoint ≤ 0x001F) ∨
    (0x000E ≤ codepoint ∧ codepoint ≤ 0x001F) ∨
    codepoint ∈ reserved_singletons)

/-- Models `std::char::from_u32`: `some` exactly on valid Unicode scalar values. -/
def char_from_u32 (n : Nat) : Option Char :=
  if n.isValidChar then some (Char.ofNat n) else none

/-- Lines 155-179 of `consume_number`: given the parsed integer, the
characters this step leaves in the consume buffer (each branch clears the
buffer first) and the parse error it reports, if any. -/
def replace_num (num : Nat) : List Char × Option String :=
  match TOKEN_REPLACEMENTS_get num with
  | some r => ([r], none)
  | none =>
    if (0xD800 < num ∧ num < 0xDFFF) ∨ 0x10FFFFF < num then
      ([CHAR_REPLACEMENT], some "within reserved codepoint range, but replaced")
    else if in_reserved_number_range num then
      ([], some "within reserved codepoint range, ignored")
    else
      ([(char_from_u32 num).getD CHAR_REPLACEMENT], none)

/-- The digit loop of `consume_number` (lines 99-121) viewed from the
remaining input: `none` when the loop hit end of input (line 101-106,
after consuming every remaining character, all of them digits), otherwise
the maximal digit run, the loop having unread the first non-digit. -/
def read_digits (pred : Char → Bool) : List Char → Option (List Char)
  | [] => none
  | c :: cs => if pred c then (read_digits pred cs).map (c :: ·) else some []

/-- Models `consume_number` from the digit loop on (lines 99-179).  `cp` is the
checkpoint taken at entry (line 73); `is_hex` tells whether an `x`/`X` was
consumed.  On the end-of-input error path the digits read before the end
stay in the consume buffer (only the stream is restored). -/
def consume_number_digits (t1 : Tokenizer) (cp : Nat) (is_hex : Bool) :
    Except String String × Tokenizer :=
  let pred := if is_hex then is_ascii_hexdigit else is_ascii_digit
  let rest := t1.stream.input.drop t1.stream.pos
  match read_digits pred rest with
  | none =>
      (Except.error "", { t1 with stream := t1.stream.seek cp, buffer := t1.buffer ++ rest })
  | some ds =>
    let t2 : Tokenizer :=
      { t1 with stream := { t1.stream with pos := t1.stream.pos + ds.length },
                buffer := t1.buffer ++ ds }
    match t2.stream.read_char with
    | (none, s3) => (Except.error "", { t2 with stream := s3.seek cp })
    | (some c, s3) =>
      let t3 := { t2 with stream := s3 }
      if c ≠ ';' then
        let t4 := t3.parse_error "expected a semicolon"
        (Except.error "", { t4 with stream := t4.stream.seek cp })
      else
        let t4 := t3.consume c
        if ds.length = 0 then
          let t5 := t4.parse_error "did not expect #;"
          (Except.error "", { t5 with stream := t5.stream.seek cp })
        else
          let num := from_str_radix_u32 ds (if is_hex then 16 else 10)
          (Except.ok "",
            { t4 with buffer := (replace_num num).1,
                      errors := t4.errors ++ (replace_num num).2.toList })

/-- Models `Tokenizer::consume_number` (lines 69-180).  The two structural error
messages of the source contain quote characters and are rendered here as
"expected a semicolon" and "did not expect #;". -/
def consume_number (t0 : Tokenizer) : Except String String × Tokenizer :=
  let cp := t0.stream.tell
  match t0.stream.look_ahead 0 with
  | none => (Except.error "", t0)
  | some hex =>
    if hex = 'x' ∨ hex = 'X' then
      match t0.stream.read_char with
      | (none, s1) => (Except.error "", { t0 with stream := s1.seek cp })
      | (some c, s1) => consume_number_digits (Tokenizer.consume { t0 with stream := s1 } c) cp true
    else consume_number_digits t0 cp false

/-- Modelled from the spec: `TOKEN_NAMED_CHARS` from
`token_named_characters.rs` is not part of the given source tree.  The
spec fixes it as an immutable mapping from reference names (2-32 ASCII
letters/digits, unique keys, many sharing prefixes) to decoded text; the
entries below are the ones the spec and the source's own tests name,
including the prefix-ambiguous pairs not/notin and copy/copyright. -/
def TOKEN_NAMED_CHARS : List (String × String) :=
  [("amp", "&"), ("copy", "©"), ("copyright", "©"), ("euro", "€"),
   ("gt", ">"), ("laquo", "«"), ("lt", "<"), ("not", "¬"),
   ("notin", "∈"), ("quot", "\""), ("raquo", "»"), ("reg", "®")]

/-- Models `TOKEN_NAMED_CHARS.contains_key`. -/
def named_contains_key (k : String) : Bool :=
  (TOKEN_NAMED_CHARS.lookup k).isSome

/-- Models `TOKEN_NAMED_CHARS[k]`: the Rust map index panics on a missing key;
in the paths exercised below the key is always present, and the model
returns the empty string in the (unreached) missing case. -/
def named_index (k : String) : String :=
  (TOKEN_NAMED_CHARS.lookup k).getD ""

/-- Exit descriptor for the `consume_anything_else` loop: the characters
its exit path appends to the consume buffer (`ok`) or a failure (`err`),
together with the number of scalars the loop read from the stream. -/
inductive CAEOut where
  | ok (append : List Char) (consumed : Nat)
  | err (consumed : Nat)
deriving Repr, DecidableEq

/-- The loop of `consume_anything_else` (lines 227-323) viewed from the
remaining input.  `cm` is `current_match`, `captured` the characters the
outer `read_char` has accumulated, `s` the characters the inner
`read_char` has accumulated.  Per iteration the source reads one scalar
at the top of the loop (into `captured`) and a second one at line 262
(into `s`); the commented-out blocks of the source are omitted. -/
def cae_loop (cm : Option String) (captured s : List Char) :
    List Char → CAEOut
  | [] =>
    -- line 228-233: end of stream at the outer read; consume `captured` as-is
    CAEOut.ok captured 0
  | c :: rest =>
    let captured := captured ++ [c]
    -- line 237-245: outer-read terminator (no `;` in this list) with a match
    if (c = ' ' ∨ c = '&' ∨ c = '<') ∧ cm.isSome then
      CAEOut.ok ((named_index (cm.getD "")).data ++ s ++ [c]) 1
    else
      -- line 247-249
      let cm := if named_contains_key (String.mk captured) then some (String.mk captured) else cm
      match rest with
      | [] =>
        -- line 314-321: end of stream at the inner read
        match cm with
        | none => CAEOut.ok ('&' :: s) 1
        | some m => CAEOut.ok (m.data ++ s) 1
      | c2 :: rest2 =>
        if c2 = ';' ∨ c2 = ' ' ∨ c2 = '&' ∨ c2 = '<' then
          -- line 262-279: inner-read terminator
          match cm with
          | none => CAEOut.err 2
          | some m =>
            let s := if s ≠ [] then s ++ [c2] else s
            CAEOut.ok ((named_index m).data ++ s) 2
        else
          -- line 281-304
          let s := s ++ [c2]
          let value := (cm.getD "") ++ String.mk s
          let next :=
            if named_contains_key value then cae_loop (some (String.mk s)) captured [] rest2
            else cae_loop cm captured s rest2
          match next with
          | CAEOut.ok a n => CAEOut.ok a (n + 2)
          | CAEOut.err n => CAEOut.err (n + 2)

/-- Models `Tokenizer::consume_anything_else` (lines 209-324): run the loop on
the remaining input; every buffer write of the source happens on the exit
path, so the net effect is one batch append. -/
def consume_anything_else (t : Tokenizer) : Except String String × Tokenizer :=
  match cae_loop none [] [] (t.stream.input.drop t.stream.pos) with
  | CAEOut.ok a n =>
    (Except.ok "",
      { t with stream := { t.stream with pos := t.stream.pos + n },
               buffer := t.buffer ++ a })
  | CAEOut.err n =>
    (Except.error "", { t with stream := { t.stream with pos := t.stream.pos + n } })

/-- The characters the coordinator refuses outright (lines 27-39): tab,
line feed, form feed, space, `<`, `&`, plus the caller-supplied
`additional_allowed_char`. -/
def disallowed_chars (additional_allowed_char : Option Char) : List Char :=
  [CHAR_TAB, CHAR_LF, CHAR_FF, CHAR_SPACE, '<', '&'] ++ additional_allowed_char.toList

/-- Models `Tokenizer::consume_character_reference` (lines 12-66), entered with
the stream positioned immediately after the triggering `&`.  The
`as_attribute` flag only guards an empty block in the source
(lines 15-17). -/
def consume_character_reference (t0 : Tokenizer) (additional_allowed_char : Option Char)
    (as_attribute : Bool) : Option String × Tokenizer :=
  let t := t0.clear_consume_buffer
  match t.stream.read_char with
  | (none, s1) => (none, { t with stream := s1 })
  | (some c, s1) =>
    let t1 := { t with stream := s1 }
    if c ∈ disallowed_chars additional_allowed_char then
      (none, { t1 with stream := t1.stream.unread })
    else if c = '#' then
      let t2 := (t1.consume '&').consume c
      match consume_number t2 with
      | (Except.error _, t3) => (none, { t3 with stream := t3.stream.unread })
      | (Except.ok _, t3) => (some t3.get_consumed_str, t3)
    else
      let t2 := { t1 with stream := t1.stream.unread }
      match consume_anything_else t2 with
      | (Except.error _, t3) => (none, { t3 with stream := t3.stream.unread })
      | (Except.ok _, t3) => (some t3.get_consumed_str, t3)

/-! ### Specification-side definitions

The following definitions restate, in the words of the specification,
properties the claims compare the code against. -/

/-- Steps 7-10 of the numeric reference decoder as worded by the spec
(§4.2): legacy remap first; then the surrogate range 0xD800-0xDFFF
inclusive or any value above the maximum scalar 0x10FFFF gives the
replacement character; then a value in a Noncharacter/Control Range (the
program's range set) gives the empty string; otherwise the scalar itself,
with the replacement character substituted if the value is not a valid
scalar for any other reason. -/
def specNumPipeline (n : Nat) : String :=
  match TOKEN_REPLACEMENTS_get n with
  | some r => String.mk [r]
  | none =>
    if (0xD800 ≤ n ∧ n ≤ 0xDFFF) ∨ 0x10FFFF < n then "�"
    else if in_reserved_number_range n then ""
    else if n.isValidChar then String.mk [Char.ofNat n] else "�"

/-- Noncharacter codepoints as worded by the spec (§6): 0xFDD0-0xFDEF
plus the `_FFFE`/`_FFFF` pair at the end of each of the 17 Unicode
planes. -/
def spec_noncharacter (n : Nat) : Bool :=
  decide ((0xFDD0 ≤ n ∧ n ≤ 0xFDEF) ∨
    (n ≤ 0x10FFFF ∧ (n % 0x10000 = 0xFFFE ∨ n % 0x10000 = 0xFFFF)))

/-- Whether the text after `#` selects hex mode (its first scalar is
`x` or `X`). -/
def num_is_hex (rest : List Char) : Bool :=
  match rest.head? with
  | some h => decide (h = 'x' ∨ h = 'X')
  | none => false

/-- The portion of the text after `#` that the digit loop scans (the
text after the consumed `x`/`X` in hex mode). -/
def num_body (rest : List Char) : List Char :=
  if num_is_hex rest then rest.tail else rest

/-- The digit predicate of the selected mode. -/
def num_pred (rest : List Char) : Char → Bool :=
  if num_is_hex rest then is_ascii_hexdigit else is_ascii_digit

/-- Structural well-formedness of a numeric reference, judged from the
text after `#`: the maximal digit run for the selected mode is non-empty,
does not run to end of input, and is followed by `;`. -/
def num_good (rest : List Char) : Bool :=
  !rest.isEmpty && !(num_body rest).all (num_pred rest) &&
  ((num_body rest).takeWhile (num_pred rest)).length != 0 &&
  ((num_body rest).get? ((num_body rest).takeWhile (num_pred rest)).length == some ';')

/-! ### Helper lemmas -/

theorem get?_drop_eq {α : Type} (l : List α) (i j : Nat) :
    (l.drop i).get? j = l.get? (i + j) := by
  induction i generalizing l with
  | zero => simp
  | succ i ih =>
    cases l with
    | nil => simp
    | cons a as =>
      have harith : i + 1 + j = (i + j) + 1 := by omega
      rw [List.drop_succ_cons, ih as, harith, List.get?_cons_succ]

theorem read_digits_eq (pred : Char → Bool) (l : List Char) :
    read_digits pred l = if l.all pred then none else some (l.takeWhile pred) := by
  induction l with
  | nil => simp [read_digits]
  | cons c cs ih =>
    cases h : pred c with
    | false => simp [read_digits, h, List.all_cons, List.takeWhile_cons]
    | true =>
      cases h2 : cs.all pred with
      | true => simp [read_digits, h, ih, h2, List.all_cons, List.takeWhile_cons]
      | false => simp [read_digits, h, ih, h2, List.all_cons, List.takeWhile_cons]

theorem takeWhile_all_append (pred : Char → Bool) (l r : List Char)
    (h : l.all pred = true) : (l ++ r).takeWhile pred = l ++ r.takeWhile pred := by
  induction l with
  | nil => simp
  | cons c cs ih =>
    simp only [List.all_cons, Bool.and_eq_true] at h
    simp [List.takeWhile_cons, h.1, ih h.2]

theorem all_append_cons_ne (pred : Char → Bool) (l : List Char) (c : Char)
    (r : List Char) (h : pred c = false) : (l ++ c :: r).all pred = false := by
  induction l with
  | nil => simp [h]
  | cons a as ih => simp [List.all_cons, ih]

theorem get?_append_len {α : Type} (l : List α) (c : α) (r : List α) :
    (l ++ c :: r).get? l.length = some c := by
  induction l with
  | nil => rfl
  | cons a as ih => simpa using ih

theorem remap_get_none_iff (n : Nat) :
    TOKEN_REPLACEMENTS_get n = none ↔ n < 0x80 ∨ 0x9F < n := by
  unfold TOKEN_REPLACEMENTS_get
  by_cases h : n < 0x80 ∨ 0x9F < n
  · rw [if_pos h]
    exact iff_of_true rfl h
  · rw [if_neg h]
    exact iff_of_false (Option.some_ne_none _) h

theorem mem_reserved_singletons (n : Nat) : n ∈ reserved_singletons ↔
    (n = 0x000B ∨ n = 0xFFFE ∨ n = 0xFFFF ∨ n = 0x1FFFE ∨ n = 0x1FFFF ∨
     n = 0x2FFFE ∨ n = 0x2FFFF ∨ n = 0x3FFFE ∨ n = 0x3FFFF ∨ n = 0x4FFFE ∨
     n = 0x4FFFF ∨ n = 0x5FFFE ∨ n = 0x5FFFF ∨ n = 0x6FFFE ∨ n = 0x6FFFF ∨
     n = 0x7FFFE ∨ n = 0x7FFFF ∨ n = 0x8FFFE ∨ n = 0x8FFFF ∨ n = 0x9FFFE ∨
     n = 0x9FFFF ∨ n = 0xAFFFE ∨ n = 0xAFFFF ∨ n = 0xBFFFE ∨ n = 0xBFFFF ∨
     n = 0xCFFFE ∨ n = 0xCFFFF ∨ n = 0xDFFFE ∨ n = 0xDFFFF ∨ n = 0xEFFFE ∨
     n = 0xEFFFF ∨ n = 0xFFFFE ∨ n = 0xFFFFF ∨ n = 0x10FFFE ∨ n = 0x10FFFF) := by
  simp only [reserved_singletons, List.mem_cons, List.not_mem_nil, or_false]

theorem reserved_iff (n : Nat) : in_reserved_number_range n = true ↔
    ((0x0001 ≤ n ∧ n ≤ 0x0008) ∨ (0x000E ≤ n ∧ n ≤ 0x001F) ∨
     (0x007F ≤ n ∧ n ≤ 0x009F) ∨ (0xFDD0 ≤ n ∧ n ≤ 0xFDEF) ∨
     (0x000E ≤ n ∧ n ≤ 0x001F) ∨ (0x000E ≤ n ∧ n ≤ 0x001F) ∨
     (0x000E ≤ n ∧ n ≤ 0x001F) ∨ (0x000E ≤ n ∧ n ≤ 0x001F) ∨
     (0x000E ≤ n ∧ n ≤ 0x001F) ∨
     (n = 0x000B ∨ n = 0xFFFE ∨ n = 0xFFFF ∨ n = 0x1FFFE ∨ n = 0x1FFFF ∨
      n = 0x2FFFE ∨ n = 0x2FFFF ∨ n = 0x3FFFE ∨ n = 0x3FFFF ∨ n = 0x4FFFE ∨
      n = 0x4FFFF ∨ n = 0x5FFFE ∨ n = 0x5FFFF ∨ n = 0x6FFFE ∨ n = 0x6FFFF ∨
      n = 0x7FFFE ∨ n = 0x7FFFF ∨ n = 0x8FFFE ∨ n = 0x8FFFF ∨ n = 0x9FFFE ∨
      n = 0x9FFFF ∨ n = 0xAFFFE ∨ n = 0xAFFFF ∨ n = 0xBFFFE ∨ n = 0xBFFFF ∨
      n = 0xCFFFE ∨ n = 0xCFFFF ∨ n = 0xDFFFE ∨ n = 0xDFFFF ∨ n = 0xEFFFE ∨
      n = 0xEFFFF ∨ n = 0xFFFFE ∨ n = 0xFFFFF ∨ n = 0x10FFFE ∨ n = 0x10FFFF)) := by
  rw [in_reserved_number_range, decide_eq_true_eq, mem_reserved_singletons n]

theorem reserved_bounds (n : Nat) (h : in_reserved_number_range n = true) :
    n < 0xD800 ∨ (0xDFFF < n ∧ n ≤ 0x10FFFF) := by
  rw [reserved_iff] at h
  omega

theorem reserved_above_fdd0 (n : Nat) (h : 0xFDD0 ≤ n) :
    in_reserved_number_range n = spec_noncharacter n := by
  cases hr : in_reserved_number_range n with
  | true =>
    rw [reserved_iff] at hr
    rw [eq_comm, spec_noncharacter, decide_eq_true_eq]
    omega
  | false =>
    rw [Bool.eq_false_iff, ne_eq, reserved_iff] at hr
    rw [eq_comm, Bool.eq_false_iff, ne_eq, spec_noncharacter, decide_eq_true_eq]
    omega

theorem valid_char_iff (n : Nat) :
    n.isValidChar ↔ n < 0xD800 ∨ (0xDFFF < n ∧ n < 0x110000) := Iff.rfl

/-- The buffer contents that lines 155-178 produce agree, for every parsed
integer, with the spec's §4.2 steps 7-10: the boundary surrogates and the
values between 0x110000 and 0x10FFFFF missed by the line-162 guard are
still mapped to the replacement character by the `unwrap_or` fallback of
line 177. -/
theorem replace_num_fst_eq_spec (n : Nat) :
    (replace_num n).1 = (specNumPipeline n).data := by
  unfold replace_num specNumPipeline
  cases hrep : TOKEN_REPLACEMENTS_get n with
  | some r => rfl
  | none =>
    have hn : n < 0x80 ∨ 0x9F < n := (remap_get_none_iff n).mp hrep
    by_cases hb : (0xD800 < n ∧ n < 0xDFFF) ∨ 0x10FFFFF < n
    · have hs : (0xD800 ≤ n ∧ n ≤ 0xDFFF) ∨ 0x10FFFF < n := by omega
      rw [if_pos hb, if_pos hs]
      rfl
    · by_cases hs : (0xD800 ≤ n ∧ n ≤ 0xDFFF) ∨ 0x10FFFF < n
      · -- n is 0xD800, 0xDFFF, or in (0x10FFFF, 0x10FFFFF]
        have hres : in_reserved_number_range n = false := by
          cases hres : in_reserved_number_range n with
          | false => rfl
          | true => exact absurd (reserved_bounds n hres) (by omega)
        have hval : ¬ n.isValidChar := by
          rw [valid_char_iff]; omega
        rw [if_neg hb, hres, if_pos hs]
        simp only [Bool.false_eq_true, if_false, char_from_u32, if_neg hval]
        rfl
      · have hval : n.isValidChar := by
          rw [valid_char_iff]; omega
        rw [if_neg hb, if_neg hs]
        cases hres : in_reserved_number_range n with
        | true => rfl
        | false =>
          simp only [Bool.false_eq_true, if_false, char_from_u32, if_pos hval]
          rfl

theorem string_mk_data (str : String) : String.mk str.data = str := rfl

theorem first_nonpred (p : Char → Bool) (l : List Char) (h : l.all p = false) :
    ∃ c, l.get? (l.takeWhile p).length = some c ∧ p c = false := by
  induction l with
  | nil => simp at h
  | cons a as ih =>
    cases ha : p a with
    | false => exact ⟨a, by simp [List.takeWhile_cons, ha], ha⟩
    | true =>
      simp only [List.all_cons, ha, Bool.true_and] at h
      obtain ⟨c, hc, hpc⟩ := ih h
      exact ⟨c, by simpa [List.takeWhile_cons, ha] using hc, hpc⟩

/-! Characterization of `consume_number_digits` by the shape of the
remaining input. -/

theorem cnd_eof (t1 : Tokenizer) (cp : Nat) (ih : Bool)
    (hall : (t1.stream.input.drop t1.stream.pos).all
      (if ih then is_ascii_hexdigit else is_ascii_digit) = true) :
    consume_number_digits t1 cp ih =
      (Except.error "", ⟨⟨t1.stream.input, cp⟩,
        t1.buffer ++ t1.stream.input.drop t1.stream.pos, t1.errors⟩) := by
  simp only [consume_number_digits]
  rw [read_digits_eq, hall]
  simp [InputStream.seek]

theorem cnd_err_stop (t1 : Tokenizer) (cp : Nat) (ih : Bool) (c : Char)
    (hall : (t1.stream.input.drop t1.stream.pos).all
      (if ih then is_ascii_hexdigit else is_ascii_digit) = false)
    (hc : t1.stream.input.get? (t1.stream.pos +
      ((t1.stream.input.drop t1.stream.pos).takeWhile
        (if ih then is_ascii_hexdigit else is_ascii_digit)).length) = some c)
    (hne : c ≠ ';') :
    consume_number_digits t1 cp ih =
      (Except.error "", ⟨⟨t1.stream.input, cp⟩,
        t1.buffer ++ (t1.stream.input.drop t1.stream.pos).takeWhile
          (if ih then is_ascii_hexdigit else is_ascii_digit),
        t1.errors ++ ["expected a semicolon"]⟩) := by
  simp only [consume_number_digits]
  rw [read_digits_eq, hall]
  simp only [Bool.false_eq_true, if_false, InputStream.read_char, hc]
  rw [if_pos hne]
  simp [Tokenizer.parse_error, InputStream.seek]

theorem cnd_err_nodigit (t1 : Tokenizer) (cp : Nat) (ih : Bool)
    (hall : (t1.stream.input.drop t1.stream.pos).all
      (if ih then is_ascii_hexdigit else is_ascii_digit) = false)
    (hc : t1.stream.input.get? (t1.stream.pos +
      ((t1.stream.input.drop t1.stream.pos).takeWhile
        (if ih then is_ascii_hexdigit else is_ascii_digit)).length) = some ';')
    (hlen : ((t1.stream.input.drop t1.stream.pos).takeWhile
      (if ih then is_ascii_hexdigit else is_ascii_digit)).length = 0) :
    consume_number_digits t1 cp ih =
      (Except.error "", ⟨⟨t1.stream.input, cp⟩,
        t1.buffer ++ (t1.stream.input.drop t1.stream.pos).takeWhile
          (if ih then is_ascii_hexdigit else is_ascii_digit) ++ [';'],
        t1.errors ++ ["did not expect #;"]⟩) := by
  simp only [consume_number_digits]
  rw [read_digits_eq, hall]
  simp only [Bool.false_eq_true, if_false, InputStream.read_char, hc]
  rw [if_neg (by simp), if_pos hlen]
  simp [Tokenizer.parse_error, Tokenizer.consume, InputStream.seek]

theorem cnd_ok (t1 : Tokenizer) (cp : Nat) (ih : Bool)
    (hall : (t1.stream.input.drop t1.stream.pos).all
      (if ih then is_ascii_hexdigit else is_ascii_digit) = false)
    (hc : t1.stream.input.get? (t1.stream.pos +
      ((t1.stream.input.drop t1.stream.pos).takeWhile
        (if ih then is_ascii_hexdigit else is_ascii_digit)).length) = some ';')
    (hlen : ((t1.stream.input.drop t1.stream.pos).takeWhile
      (if ih then is_ascii_hexdigit else is_ascii_digit)).length ≠ 0) :
    consume_number_digits t1 cp ih =
      (Except.ok "", ⟨⟨t1.stream.input,
        t1.stream.pos + ((t1.stream.input.drop t1.stream.pos).takeWhile
          (if ih then is_ascii_hexdigit else is_ascii_digit)).length + 1⟩,
        (replace_num (from_str_radix_u32
          ((t1.stream.input.drop t1.stream.pos).takeWhile
            (if ih then is_ascii_hexdigit else is_ascii_digit))
          (if ih then 16 else 10))).1,
        t1.errors ++ (replace_num (from_str_radix_u32
          ((t1.stream.input.drop t1.stream.pos).takeWhile
            (if ih then is_ascii_hexdigit else is_ascii_digit))
          (if ih then 16 else 10))).2.toList⟩) := by
  simp only [consume_number_digits]
  rw [read_digits_eq, hall]
  simp only [Bool.false_eq_true, if_false, InputStream.read_char, hc]
  rw [if_neg (by simp), if_neg hlen]
  simp [Tokenizer.consume, Tokenizer.parse_error]

/-! Characterization of `consume_number` by the first remaining scalar. -/

theorem cn_eof (t0 : Tokenizer)
    (hhead : t0.stream.input.get? t0.stream.pos = none) :
    consume_number t0 = (Except.error "", t0) := by
  have h0 : t0.stream.look_ahead 0 = none := by
    rw [InputStream.look_ahead, Nat.add_zero]; exact hhead
  unfold consume_number
  rw [h0]

theorem cn_hex (t0 : Tokenizer) (x : Char) (hx : x = 'x' ∨ x = 'X')
    (hhead : t0.stream.input.get? t0.stream.pos = some x) :
    consume_number t0 = consume_number_digits
      ⟨⟨t0.stream.input, t0.stream.pos + 1⟩, t0.buffer ++ [x], t0.errors⟩
      t0.stream.pos true := by
  have h0 : t0.stream.look_ahead 0 = some x := by
    rw [InputStream.look_ahead, Nat.add_zero]; exact hhead
  have h1 : t0.stream.read_char = (some x, { t0.stream with pos := t0.stream.pos + 1 }) := by
    unfold InputStream.read_char
    rw [hhead]
  unfold consume_number
  rw [h0]
  simp only [if_pos hx, h1, Tokenizer.consume, InputStream.tell]

theorem cn_dec (t0 : Tokenizer) (c : Char) (hcx : ¬(c = 'x' ∨ c = 'X'))
    (hhead : t0.stream.input.get? t0.stream.pos = some c) :
    consume_number t0 = consume_number_digits t0 t0.stream.pos false := by
  have h0 : t0.stream.look_ahead 0 = some c := by
    rw [InputStream.look_ahead, Nat.add_zero]; exact hhead
  unfold consume_number
  rw [h0]
  simp only [hcx, if_false, InputStream.tell]

/-! Characterization of the coordinator `consume_character_reference` by
the first remaining scalar. -/

theorem hash_not_disallowed (aac : Option Char) (h : aac ≠ some '#') :
    '#' ∉ disallowed_chars aac := by
  intro hmem
  rw [disallowed_chars, List.mem_append] at hmem
  cases hmem with
  | inl hl => exact absurd hl (by decide)
  | inr hr =>
    cases aac with
    | none => simp [Option.toList] at hr
    | some a =>
      simp only [Option.toList, List.mem_singleton] at hr
      exact h (by rw [hr])

theorem ccr_eof (t0 : Tokenizer) (aac : Option Char) (attr : Bool)
    (hhead : t0.stream.input.get? t0.stream.pos = none) :
    consume_character_reference t0 aac attr = (none, ⟨t0.stream, [], t0.errors⟩) := by
  have h1 : (⟨t0.stream, [], t0.errors⟩ : Tokenizer).stream.read_char =
      (none, t0.stream) := by
    unfold InputStream.read_char
    rw [hhead]
  unfold consume_character_reference Tokenizer.clear_consume_buffer
  simp only [h1]

theorem ccr_guard (t0 : Tokenizer) (aac : Option Char) (attr : Bool) (c : Char)
    (hhead : t0.stream.input.get? t0.stream.pos = some c)
    (hc : c ∈ disallowed_chars aac) :
    consume_character_reference t0 aac attr = (none, ⟨t0.stream, [], t0.errors⟩) := by
  have h1 : (⟨t0.stream, [], t0.errors⟩ : Tokenizer).stream.read_char =
      (some c, { t0.stream with pos := t0.stream.pos + 1 }) := by
    unfold InputStream.read_char
    rw [hhead]
  unfold consume_character_reference Tokenizer.clear_consume_buffer
  simp only [h1]
  simp only [hc, if_true, InputStream.unread, Nat.add_sub_cancel]

theorem ccr_hash (t0 : Tokenizer) (aac : Option Char) (attr : Bool)
    (hhead : t0.stream.input.get? t0.stream.pos = some '#')
    (haac : aac ≠ some '#') :
    consume_character_reference t0 aac attr =
      (match consume_number ⟨⟨t0.stream.input, t0.stream.pos + 1⟩, ['&', '#'], t0.errors⟩ with
       | (Except.error _, t3) => (none, { t3 with stream := t3.stream.unread })
       | (Except.ok _, t3) => (some t3.get_consumed_str, t3)) := by
  have h1 : (⟨t0.stream, [], t0.errors⟩ : Tokenizer).stream.read_char =
      (some '#', { t0.stream with pos := t0.stream.pos + 1 }) := by
    unfold InputStream.read_char
    rw [hhead]
  unfold consume_character_reference Tokenizer.clear_consume_buffer
  simp only [h1]
  rw [if_neg (hash_not_disallowed aac haac)]
  simp [Tokenizer.consume]

theorem ccr_named (t0 : Tokenizer) (aac : Option Char) (attr : Bool) (c : Char)
    (hhead : t0.stream.input.get? t0.stream.pos = some c)
    (hc : c ∉ disallowed_chars aac) (hcn : c ≠ '#') :
    consume_character_reference t0 aac attr =
      (match consume_anything_else ⟨⟨t0.stream.input, t0.stream.pos⟩, [], t0.errors⟩ with
       | (Except.error _, t3) => (none, { t3 with stream := t3.stream.unread })
       | (Except.ok _, t3) => (some t3.get_consumed_str, t3)) := by
  have h1 : (⟨t0.stream, [], t0.errors⟩ : Tokenizer).stream.read_char =
      (some c, { t0.stream with pos := t0.stream.pos + 1 }) := by
    unfold InputStream.read_char
    rw [hhead]
  unfold consume_character_reference Tokenizer.clear_consume_buffer
  simp only [h1]
  rw [if_neg hc, if_neg hcn]
  simp only [InputStream.unread, Nat.add_sub_cancel]

theorem cae_err_ge_two (cm : Option String) (cap s l : List Char) (n : Nat)
    (h : cae_loop cm cap s l = CAEOut.err n) : 2 ≤ n := by
  match l with
  | [] => simp [cae_loop] at h
  | [c] =>
    unfold cae_loop at h
    split at h
    · simp at h
    · dsimp only at h
      split at h <;> simp at h
  | c :: c2 :: rest2 =>
    unfold cae_loop at h
    split at h
    · simp at h
    · dsimp only at h
      split at h
      · split at h <;> simp_all
      · split at h <;> simp_all
        omega

/-- Full characterization of `consume_number_digits`: the result is
success exactly for a non-empty maximal digit run followed by `;`; on
every error the stream is restored to the checkpoint, the consume buffer
only grows, and a diagnostic is reported exactly when the failure was not
an end-of-input failure. -/
theorem cnd_master (t1 : Tokenizer) (cp : Nat) (ih : Bool) :
    ((consume_number_digits t1 cp ih).1 =
      if (!(t1.stream.input.drop t1.stream.pos).all
            (if ih then is_ascii_hexdigit else is_ascii_digit) &&
          ((t1.stream.input.drop t1.stream.pos).takeWhile
            (if ih then is_ascii_hexdigit else is_ascii_digit)).length != 0 &&
          ((t1.stream.input.drop t1.stream.pos).get?
            ((t1.stream.input.drop t1.stream.pos).takeWhile
              (if ih then is_ascii_hexdigit else is_ascii_digit)).length == some ';'))
      then Except.ok "" else Except.error "") ∧
    (∀ e : String, (consume_number_digits t1 cp ih).1 = Except.error e →
      (consume_number_digits t1 cp ih).2.stream.pos = cp ∧
      (consume_number_digits t1 cp ih).2.stream.input = t1.stream.input ∧
      (∃ tl, (consume_number_digits t1 cp ih).2.buffer = t1.buffer ++ tl) ∧
      ((consume_number_digits t1 cp ih).2.errors = t1.errors ↔
        (t1.stream.input.drop t1.stream.pos).all
          (if ih then is_ascii_hexdigit else is_ascii_digit) = true)) := by
  cases hall : (t1.stream.input.drop t1.stream.pos).all
      (if ih then is_ascii_hexdigit else is_ascii_digit) with
  | true =>
    rw [cnd_eof t1 cp ih hall]
    refine ⟨by simp [hall], fun e he => ⟨rfl, rfl, ⟨_, rfl⟩, by simp [hall]⟩⟩
  | false =>
    obtain ⟨c, hc0, hpc⟩ := first_nonpred _ _ hall
    have hcin : t1.stream.input.get? (t1.stream.pos +
        ((t1.stream.input.drop t1.stream.pos).takeWhile
          (if ih then is_ascii_hexdigit else is_ascii_digit)).length) = some c := by
      rw [← get?_drop_eq]
      exact hc0
    by_cases hsemi : c = ';'
    · subst hsemi
      by_cases hlen : ((t1.stream.input.drop t1.stream.pos).takeWhile
          (if ih then is_ascii_hexdigit else is_ascii_digit)).length = 0
      · rw [cnd_err_nodigit t1 cp ih hall hcin hlen]
        refine ⟨by simp [hall, hlen], fun e he => ⟨rfl, rfl,
          ⟨(t1.stream.input.drop t1.stream.pos).takeWhile
              (if ih then is_ascii_hexdigit else is_ascii_digit) ++ [';'],
            by rw [List.append_assoc]⟩, ?_⟩⟩
        exact iff_of_false
          (fun heq => by
            have hlenq := congrArg List.length heq
            simp at hlenq)
          (by simp)
      · rw [cnd_ok t1 cp ih hall hcin hlen]
        refine ⟨by rw [hc0]; simp [hall, hlen], fun e he => absurd he (by simp)⟩
    · rw [cnd_err_stop t1 cp ih c hall hcin hsemi]
      refine ⟨by rw [hc0]; simp [hall, hsemi], fun e he => ⟨rfl, rfl, ⟨_, rfl⟩, ?_⟩⟩
      exact iff_of_false
        (fun heq => by
          have hlenq := congrArg List.length heq
          simp at hlenq)
        (by simp)

/-- Full characterization of `consume_number`: success exactly on a
structurally well-formed numeric reference, and on failure the cursor is
back at the entry position (the checkpoint of line 73), the input is
untouched, the consume buffer has only grown, and a structural parse
error has been reported exactly when the failure was not at end of
input. -/
theorem consume_number_master (t : Tokenizer) :
    ((consume_number t).1 =
      if num_good (t.stream.input.drop t.stream.pos) then Except.ok "" else Except.error "") ∧
    (∀ e : String, (consume_number t).1 = Except.error e →
      (consume_number t).2.stream.pos = t.stream.pos ∧
      (consume_number t).2.stream.input = t.stream.input ∧
      (∃ tl, (consume_number t).2.buffer = t.buffer ++ tl) ∧
      ((consume_number t).2.errors = t.errors ↔
        (num_body (t.stream.input.drop t.stream.pos)).all
          (num_pred (t.stream.input.drop t.stream.pos)) = true)) := by
  rcases hrest : t.stream.input.drop t.stream.pos with _ | ⟨h, tail⟩
  · have hhead : t.stream.input.get? t.stream.pos = none := by
      have hg := get?_drop_eq t.stream.input t.stream.pos 0
      rw [hrest] at hg
      simpa using hg.symm
    rw [cn_eof t hhead]
    exact ⟨by simp [num_good], fun e he => ⟨rfl, rfl, ⟨[], by simp⟩, by simp [num_body, num_pred]⟩⟩
  · have hhead : t.stream.input.get? t.stream.pos = some h := by
      have hg := get?_drop_eq t.stream.input t.stream.pos 0
      rw [hrest] at hg
      simpa using hg.symm
    have hdrop1 : t.stream.input.drop (t.stream.pos + 1) = tail := by
      rw [← List.tail_drop, hrest]
      rfl
    by_cases hx : h = 'x' ∨ h = 'X'
    · have hih : num_is_hex (h :: tail) = true := by
        simp [num_is_hex, hx]
      have hbody : num_body (h :: tail) = tail := by
        simp [num_body, hih]
      have hpred : num_pred (h :: tail) = is_ascii_hexdigit := by
        simp [num_pred, hih]
      rw [cn_hex t h hx hhead]
      have hm := cnd_master ⟨⟨t.stream.input, t.stream.pos + 1⟩, t.buffer ++ [h], t.errors⟩
        t.stream.pos true
      simp only [hdrop1, eq_self_iff_true, if_true] at hm
      have hgood : num_good (h :: tail) =
          (!tail.all is_ascii_hexdigit &&
           (tail.takeWhile is_ascii_hexdigit).length != 0 &&
           (tail.get? (tail.takeWhile is_ascii_hexdigit).length == some ';')) := by
        simp [num_good, hbody, hpred, Bool.and_assoc]
      refine ⟨?_, fun e he => ?_⟩
      · rw [hm.1, hgood]
      · have hh := hm.2 e he
        refine ⟨hh.1, hh.2.1, ?_, ?_⟩
        · obtain ⟨tl, htl⟩ := hh.2.2.1
          exact ⟨[h] ++ tl, by rw [htl, List.append_assoc]⟩
        · rw [hbody, hpred]
          exact hh.2.2.2
    · have hih : num_is_hex (h :: tail) = false := by
        simp [num_is_hex, hx]
      have hbody : num_body (h :: tail) = h :: tail := by
        simp [num_body, hih]
      have hpred : num_pred (h :: tail) = is_ascii_digit := by
        simp [num_pred, hih]
      rw [cn_dec t h hx hhead]
      have hm := cnd_master t t.stream.pos false
      simp only [hrest, Bool.false_eq_true, if_false] at hm
      have hgood : num_good (h :: tail) =
          (!(h :: tail).all is_ascii_digit &&
           ((h :: tail).takeWhile is_ascii_digit).length != 0 &&
           ((h :: tail).get? ((h :: tail).takeWhile is_ascii_digit).length == some ';')) := by
        simp [num_good, hbody, hpred, Bool.and_assoc]
      refine ⟨?_, fun e he => ?_⟩
      · rw [hm.1, hgood]
      · have hh := hm.2 e he
        refine ⟨hh.1, hh.2.1, hh.2.2.1, ?_⟩
        rw [hbody, hpred]
        exact hh.2.2.2

theorem digit_not_x (c : Char) (h : is_ascii_digit c = true) : ¬(c = 'x' ∨ c = 'X') := by
  rintro (rfl | rfl) <;> exact absurd h (by decide)

/-- On a named-matcher failure the consume buffer is untouched, the input
is untouched, and the stream has consumed at least two scalars past the
entry position (the outer and inner reads of the failing iteration). -/
theorem cae_err_state (t : Tokenizer) (e : String)
    (h : (consume_anything_else t).1 = Except.error e) :
    (consume_anything_else t).2.buffer = t.buffer ∧
    (consume_anything_else t).2.stream.input = t.stream.input ∧
    t.stream.pos + 2 ≤ (consume_anything_else t).2.stream.pos := by
  unfold consume_anything_else at h ⊢
  cases hcl : cae_loop none [] [] (t.stream.input.drop t.stream.pos) with
  | ok a n =>
    rw [hcl] at h
    simp at h
  | err n =>
    have h2 := cae_err_ge_two none [] [] (t.stream.input.drop t.stream.pos) n hcl
    exact ⟨rfl, rfl, by dsimp only; omega⟩

/-! ### Claim theorems -/

/-- C9: for every tokenizer state and disallowed-terminator argument,
`consume_character_reference` returns the same result and final state
whether the `as_attribute` flag is true or false: the flag guards only an
empty block in the source and has no observable effect. -/
theorem claim_C9_attribute_flag_no_effect (t : Tokenizer) (aac : Option Char) :
    consume_character_reference t aac true = consume_character_reference t aac false := rfl

/-- C2: evaluation of the code at the input "notin;".  Both "not" and
"notin" are table keys, and "notin" maps to the element-of sign, yet the
named matcher fails outright (returning `none`, with the cursor five
scalars past the `&`), instead of producing the mapping of "notin" as the
claim, the spec, and the source's own test `token_106` require: the loop
feeds alternate characters to `captured` and `s`, so no key is ever
matched. -/
theorem claim_C2_notin_fails :
    (consume_character_reference ⟨⟨['n', 'o', 't', 'i', 'n', ';'], 0⟩, [], []⟩ none false).1
        = none ∧
    (consume_character_reference ⟨⟨['n', 'o', 't', 'i', 'n', ';'], 0⟩, [], []⟩ none false).2.stream.pos
        = 5 ∧
    named_contains_key "not" = true ∧ named_contains_key "notin" = true ∧
    named_index "notin" = "∈" := by
  decide

/-- C4: evaluation of the code at the input "copy " (exact table key
"copy" followed by the non-semicolon terminator space).  The decoder
returns success with output "&oy" — the ampersand plus the alternate
characters collected by the inner reads — with all five scalars consumed,
instead of the mapped text "©" with the space left unconsumed as the
claim, the spec, and the source's own tests `token_110`/`token_201`
require. -/
theorem claim_C4_copy_space :
    (consume_character_reference ⟨⟨['c', 'o', 'p', 'y', ' '], 0⟩, [], []⟩ none false).1
        = some "&oy" ∧
    (consume_character_reference ⟨⟨['c', 'o', 'p', 'y', ' '], 0⟩, [], []⟩ none false).2.stream.pos
        = 5 ∧
    named_index "copy" = "©" := by
  decide

/-- C5: evaluation of the code at the input "copy" (end of input during
named matching).  The spec requires success with the mapping "©" (key
"copy" matched, empty pending); the source's own test `token_109` instead
expects the failure fallback "&copy"; the code does neither: it returns
success with output "cp" (the characters read at the odd loop positions),
the whole input consumed. -/
theorem claim_C5_eof_during_match :
    (consume_character_reference ⟨⟨['c', 'o', 'p', 'y'], 0⟩, [], []⟩ none false).1
        = some "cp" ∧
    (consume_character_reference ⟨⟨['c', 'o', 'p', 'y'], 0⟩, [], []⟩ none false).2.stream.pos
        = 4 ∧
    named_contains_key "copy" = true := by
  decide

/-- C6 counterexample: the claim requires every numeric reference with a
surrogate value (0xD800-0xDFFF inclusive, both boundaries included) to
report an invalid-codepoint parse error.  At the boundary value 0xD800
the code outputs the replacement character but reports no error at all:
the line-162 guard uses strict inequalities, so 0xD800 reaches the final
emission step instead. -/
theorem claim_C6_cex :
    (consume_character_reference ⟨⟨['#', 'x', 'D', '8', '0', '0', ';'], 0⟩, [], []⟩ none false).1
        = some "�" ∧
    (consume_character_reference ⟨⟨['#', 'x', 'D', '8', '0', '0', ';'], 0⟩, [], []⟩ none false).2.errors
        = [] := by
  decide

/-- C6 (amended): for every parsed integer in the surrogate range
0xD800-0xDFFF inclusive or above the maximum scalar 0x10FFFF, the numeric
decoder outputs exactly the replacement character; the invalid-codepoint
parse error, however, is reported exactly when the value lies strictly
between 0xD800 and 0xDFFF or strictly above 0x10FFFFF — at 0xD800,
0xDFFF, and values in 0x110000-0x10FFFFF the replacement character comes
from the final emission fallback with no diagnostic. -/
theorem claim_C6_amended (n : Nat)
    (h : (0xD800 ≤ n ∧ n ≤ 0xDFFF) ∨ 0x10FFFF < n) :
    (replace_num n).1 = [CHAR_REPLACEMENT] ∧
    ((replace_num n).2 ≠ none ↔ ((0xD800 < n ∧ n < 0xDFFF) ∨ 0x10FFFFF < n)) := by
  have hrep : TOKEN_REPLACEMENTS_get n = none := (remap_get_none_iff n).mpr (by omega)
  unfold replace_num
  rw [hrep]
  by_cases hb : (0xD800 < n ∧ n < 0xDFFF) ∨ 0x10FFFFF < n
  · rw [if_pos hb]
    exact ⟨rfl, iff_of_true (by simp) hb⟩
  · have hres : in_reserved_number_range n = false := by
      cases hres : in_reserved_number_range n with
      | false => rfl
      | true => exact absurd (reserved_bounds n hres) (by omega)
    have hval : ¬ n.isValidChar := by
      rw [valid_char_iff]; omega
    rw [if_neg hb, hres]
    simp only [Bool.false_eq_true, if_false, char_from_u32, if_neg hval]
    exact ⟨rfl, iff_of_false (by simp) hb⟩

theorem claim_C6_witness :
    ((0xD800 ≤ (0xD800 : Nat) ∧ (0xD800 : Nat) ≤ 0xDFFF) ∨ 0x10FFFF < (0xD800 : Nat)) ∧
    ((replace_num 0xD800).1 = [CHAR_REPLACEMENT] ∧
     ((replace_num 0xD800).2 ≠ none ↔
       ((0xD800 < (0xD800 : Nat) ∧ (0xD800 : Nat) < 0xDFFF) ∨ 0x10FFFFF < (0xD800 : Nat)))) :=
  ⟨by decide, claim_C6_amended 0xD800 (by decide)⟩

/-- C7 counterexample: the claim requires every numeric reference whose
value lies in a Noncharacter/Control Range to decode to the empty string.
The value 0x80 lies in the 0x007F-0x009F range tested by
`in_reserved_number_range`, yet `&#128;` decodes to "€": the legacy remap
table is consulted first. -/
theorem claim_C7_cex :
    in_reserved_number_range 0x80 = true ∧
    (consume_character_reference ⟨⟨['#', '1', '2', '8', ';'], 0⟩, [], []⟩ none false).1
        = some "€" := by
  decide

/-- C7 (amended): for every parsed integer that lies in a
Noncharacter/Control Range and is not a key of the legacy remap table,
the numeric decoder reports the disallowed-codepoint parse error and
leaves the empty output (the codepoint is dropped, not replaced); and
above 0xFDD0 the range set agrees exactly with the noncharacters
0xFDD0-0xFDEF plus the `_FFFE`/`_FFFF` pair of each of the 17 planes. -/
theorem claim_C7_amended :
    (∀ n : Nat, in_reserved_number_range n = true → TOKEN_REPLACEMENTS_get n = none →
      (replace_num n).1 = [] ∧
      (replace_num n).2 = some "within reserved codepoint range, ignored") ∧
    (∀ n : Nat, 0xFDD0 ≤ n → in_reserved_number_range n = spec_noncharacter n) := by
  constructor
  · intro n hres hrep
    have hb : ¬((0xD800 < n ∧ n < 0xDFFF) ∨ 0x10FFFFF < n) := by
      have := reserved_bounds n hres
      omega
    unfold replace_num
    rw [hrep, if_neg hb, hres]
    exact ⟨rfl, rfl⟩
  · exact fun n hn => reserved_above_fdd0 n hn

theorem claim_C7_witness :
    (in_reserved_number_range 0xFDD0 = true ∧ TOKEN_REPLACEMENTS_get 0xFDD0 = none ∧
      (replace_num 0xFDD0).1 = [] ∧
      (replace_num 0xFDD0).2 = some "within reserved codepoint range, ignored") ∧
    (0xFDD0 ≤ (0xFFFE : Nat) ∧ in_reserved_number_range 0xFFFE = spec_noncharacter 0xFFFE) :=
  ⟨⟨by decide, by decide,
    (claim_C7_amended.1 0xFDD0 (by decide) (by decide)).1,
    (claim_C7_amended.1 0xFDD0 (by decide) (by decide)).2⟩,
   ⟨by decide, claim_C7_amended.2 0xFFFE (by decide)⟩⟩

/-- C10: whenever the parsed integer of a numeric reference is not a
valid Unicode scalar value, the final emission step still produces
exactly the replacement character (the `unwrap_or` fallback), so emitting
is total; in particular the boundary surrogates and the values just above
0x10FFFF that the explicit checks miss decode to "�", as the two
evaluations at `&#xDFFF;` and `&#x110000;` show. -/
theorem claim_C10_final_step_total :
    (∀ n : Nat, ¬ n.isValidChar → (replace_num n).1 = [CHAR_REPLACEMENT]) ∧
    (consume_character_reference ⟨⟨['#', 'x', 'D', 'F', 'F', 'F', ';'], 0⟩, [], []⟩ none false).1
        = some "�" ∧
    (consume_character_reference
        ⟨⟨['#', 'x', '1', '1', '0', '0', '0', '0', ';'], 0⟩, [], []⟩ none false).1
        = some "�" := by
  refine ⟨fun n h => ?_, by decide, by decide⟩
  have hrep : TOKEN_REPLACEMENTS_get n = none := by
    rw [valid_char_iff] at h
    exact (remap_get_none_iff n).mpr (by omega)
  unfold replace_num
  rw [hrep]
  by_cases hb : (0xD800 < n ∧ n < 0xDFFF) ∨ 0x10FFFFF < n
  · rw [if_pos hb]
  · have hres : in_reserved_number_range n = false := by
      cases hres : in_reserved_number_range n with
      | false => rfl
      | true =>
        have := reserved_bounds n hres
        rw [valid_char_iff] at h
        exact absurd this (by omega)
    rw [if_neg hb, hres]
    simp only [Bool.false_eq_true, if_false, char_from_u32, if_neg h]
    rfl

theorem claim_C10_witness :
    ¬ (0xD800 : Nat).isValidChar ∧ (replace_num 0xD800).1 = [CHAR_REPLACEMENT] :=
  ⟨by decide, claim_C10_final_step_total.1 0xD800 (by decide)⟩

/-- C1 counterexample: the claim requires that after every failed decode
the accumulator is empty and the cursor sits immediately after the `&`.
On `&#;` the decode fails with the partial text "&#;" still in the
consume buffer (no failure path clears it), and on `&x;` the decode fails
with the cursor one scalar past the entry position (the coordinator
unreads only one of the two scalars the named matcher consumed). -/
theorem claim_C1_cex :
    ((consume_character_reference ⟨⟨['#', ';'], 0⟩, [], []⟩ none false).1 = none ∧
     (consume_character_reference ⟨⟨['#', ';'], 0⟩, [], []⟩ none false).2.buffer
       = ['&', '#', ';']) ∧
    ((consume_character_reference ⟨⟨['x', ';'], 0⟩, [], []⟩ none false).1 = none ∧
     (consume_character_reference ⟨⟨['x', ';'], 0⟩, [], []⟩ none false).2.stream.pos = 1) := by
  decide

/-- C1 (amended): when decode fails, the input list is never modified,
and: on the end-of-input and disallowed-character guard paths the cursor
is back at the entry position with an empty accumulator; on the numeric
path the cursor is back at the entry position but the accumulator retains
the partial text beginning `&#` consumed during the failed attempt; on
the named path the accumulator is empty but the cursor ends strictly
past the entry position (one scalar before the failing terminator), not
at it. -/
theorem claim_C1_amended (t0 : Tokenizer) (aac : Option Char) (attr : Bool)
    (hfail : (consume_character_reference t0 aac attr).1 = none) :
    (consume_character_reference t0 aac attr).2.stream.input = t0.stream.input ∧
    (t0.stream.input.get? t0.stream.pos = none →
      (consume_character_reference t0 aac attr).2.stream.pos = t0.stream.pos ∧
      (consume_character_reference t0 aac attr).2.buffer = []) ∧
    (∀ c : Char, t0.stream.input.get? t0.stream.pos = some c → c ∈ disallowed_chars aac →
      (consume_character_reference t0 aac attr).2.stream.pos = t0.stream.pos ∧
      (consume_character_reference t0 aac attr).2.buffer = []) ∧
    (t0.stream.input.get? t0.stream.pos = some '#' → '#' ∉ disallowed_chars aac →
      (consume_character_reference t0 aac attr).2.stream.pos = t0.stream.pos ∧
      ∃ tl, (consume_character_reference t0 aac attr).2.buffer = '&' :: '#' :: tl) ∧
    (∀ c : Char, t0.stream.input.get? t0.stream.pos = some c → c ∉ disallowed_chars aac →
      c ≠ '#' →
      (consume_character_reference t0 aac attr).2.buffer = [] ∧
      t0.stream.pos < (consume_character_reference t0 aac attr).2.stream.pos) := by
  rcases hrest : t0.stream.input.get? t0.stream.pos with _ | c
  · rw [ccr_eof t0 aac attr hrest]
    exact ⟨rfl, fun _ => ⟨rfl, rfl⟩,
      fun c hc _ => Option.noConfusion hc,
      fun hc _ => Option.noConfusion hc,
      fun c hc _ _ => Option.noConfusion hc⟩
  · by_cases hd : c ∈ disallowed_chars aac
    · rw [ccr_guard t0 aac attr c hrest hd]
      refine ⟨rfl, fun hcon => Option.noConfusion hcon,
        fun c2 hc2 hd2 => ⟨rfl, rfl⟩, fun hc2 hnd2 => ?_, fun c2 hc2 hnd2 hne2 => ?_⟩
      · injection hc2 with hc2e
        subst hc2e
        exact absurd hd hnd2
      · injection hc2 with hc2e
        subst hc2e
        exact absurd hd hnd2
    · by_cases hc : c = '#'
      · subst hc
        rw [ccr_hash t0 aac attr hrest
          (fun h => hd (by rw [h]; simp [disallowed_chars]))] at hfail ⊢
        rcases hr : consume_number ⟨⟨t0.stream.input, t0.stream.pos + 1⟩, ['&', '#'], t0.errors⟩
          with ⟨r, t3⟩
        rw [hr] at hfail
        cases r with
        | ok v => exact Option.noConfusion hfail
        | error e =>
          have hh := (consume_number_master
            ⟨⟨t0.stream.input, t0.stream.pos + 1⟩, ['&', '#'], t0.errors⟩).2 e (by rw [hr])
          rw [hr] at hh
          dsimp only at hh
          refine ⟨hh.2.1, fun hcon => Option.noConfusion hcon,
            fun c2 hc2 hd2 => ?_, fun _ _ => ⟨?_, ?_⟩, fun c2 hc2 hnd2 hne2 => ?_⟩
          · injection hc2 with hc2e
            subst hc2e
            exact absurd hd2 hd
          · show (t3.stream.unread).pos = t0.stream.pos
            rw [InputStream.unread, hh.1]
            simp
          · obtain ⟨tl, htl⟩ := hh.2.2.1
            exact ⟨tl, htl⟩
          · injection hc2 with hc2e
            subst hc2e
            exact absurd rfl hne2
      · rw [ccr_named t0 aac attr c hrest hd hc] at hfail ⊢
        rcases hr : consume_anything_else ⟨⟨t0.stream.input, t0.stream.pos⟩, [], t0.errors⟩
          with ⟨r, t3⟩
        rw [hr] at hfail
        cases r with
        | ok v => exact Option.noConfusion hfail
        | error e =>
          have hh := cae_err_state ⟨⟨t0.stream.input, t0.stream.pos⟩, [], t0.errors⟩ e
            (by rw [hr])
          rw [hr] at hh
          dsimp only at hh
          refine ⟨hh.2.1, fun hcon => Option.noConfusion hcon,
            fun c2 hc2 hd2 => ?_, fun hc2 hnd2 => ?_, fun c2 hc2 hnd2 hne2 => ⟨hh.1, ?_⟩⟩
          · injection hc2 with hc2e
            subst hc2e
            exact absurd hd2 hd
          · injection hc2 with hc2e
            exact absurd hc2e hc
          · show t0.stream.pos < (t3.stream.unread).pos
            rw [InputStream.unread]
            dsimp only
            have := hh.2.2
            omega

theorem claim_C1_witness :
    (consume_character_reference ⟨⟨['#', ';'], 0⟩, [], []⟩ none false).2.stream.pos = 0 ∧
    ∃ tl, (consume_character_reference ⟨⟨['#', ';'], 0⟩, [], []⟩ none false).2.buffer
      = '&' :: '#' :: tl :=
  (claim_C1_amended ⟨⟨['#', ';'], 0⟩, [], []⟩ none false (by decide)).2.2.2.1
    (by decide) (by decide)

/-- C8 counterexample: the claim requires a structural parse error to be
reported on every numeric failure, including end of input.  On the input
`&#1` (digit run cut off by end of input) decode fails but reports no
diagnostic: the end-of-input paths of `consume_number` return `Err`
without calling `parse_error`. -/
theorem claim_C8_cex :
    (consume_character_reference ⟨⟨['#', '1'], 0⟩, [], []⟩ none false).1 = none ∧
    (consume_character_reference ⟨⟨['#', '1'], 0⟩, [], []⟩ none false).2.errors = [] := by
  decide

/-- C8 (amended): the numeric decoder fails exactly when the reference is
structurally malformed — the digit run after `#` (or after the consumed
`x`/`X`) is empty, runs to end of input, or is not followed by `;`; on
every failure the cursor is restored to the checkpoint taken after `#`,
so that decode as a whole fails with the cursor rewound to immediately
after `&`; with at least one digit and a terminating `;` it always
succeeds.  The structural parse error, however, is reported exactly when
the failure was not an end-of-input failure. -/
theorem claim_C8_amended :
    (∀ t : Tokenizer, (consume_number t).1 = Except.ok "" ↔
      num_good (t.stream.input.drop t.stream.pos) = true) ∧
    (∀ (t : Tokenizer) (e : String), (consume_number t).1 = Except.error e →
      (consume_number t).2.stream.pos = t.stream.pos ∧
      ((consume_number t).2.errors = t.errors ↔
        (num_body (t.stream.input.drop t.stream.pos)).all
          (num_pred (t.stream.input.drop t.stream.pos)) = true)) ∧
    (∀ (input : List Char) (p0 : Nat) (buf : List Char) (errs : List String)
        (aac : Option Char) (attr : Bool),
      aac ≠ some '#' → input.get? p0 = some '#' →
      num_good (input.drop (p0 + 1)) = false →
      (consume_character_reference ⟨⟨input, p0⟩, buf, errs⟩ aac attr).1 = none ∧
      (consume_character_reference ⟨⟨input, p0⟩, buf, errs⟩ aac attr).2.stream.pos = p0) := by
  refine ⟨fun t => ?_, fun t e he => ?_, fun input p0 buf errs aac attr haac hhead hng => ?_⟩
  · have h1 := (consume_number_master t).1
    constructor
    · intro h
      rw [h] at h1
      cases hng : num_good (t.stream.input.drop t.stream.pos) with
      | true => rfl
      | false =>
        rw [hng] at h1
        simp at h1
    · intro hng
      rw [h1, hng]
      simp
  · have hh := (consume_number_master t).2 e he
    exact ⟨hh.1, hh.2.2.2⟩
  · rw [ccr_hash ⟨⟨input, p0⟩, buf, errs⟩ aac attr hhead haac]
    have hm := consume_number_master ⟨⟨input, p0 + 1⟩, ['&', '#'], errs⟩
    dsimp only at hm
    rcases hr : consume_number ⟨⟨input, p0 + 1⟩, ['&', '#'], errs⟩ with ⟨r, t3⟩
    rw [hr] at hm
    cases r with
    | ok v =>
      rw [hng] at hm
      simp at hm
    | error e =>
      have hh := hm.2 e rfl
      refine ⟨rfl, ?_⟩
      show (t3.stream.unread).pos = p0
      rw [InputStream.unread, hh.1]
      simp

/-- C3: for every non-empty decimal digit run D followed by `;`, decode
on `#`+D+`;` succeeds and outputs exactly what §4.2 steps 7-10 of the
spec prescribe for the parsed integer (legacy remap, then
surrogate/over-maximum replacement, then noncharacter/control dropping,
then the scalar itself with the step-10 fallback); likewise for a hex
digit run after a consumed `x`/`X`; and a digit run whose integer value
overflows the unsigned 32-bit range is treated as the value 0. -/
theorem claim_C3_numeric_value :
    (∀ (input : List Char) (p0 : Nat) (buf : List Char) (errs : List String)
        (aac : Option Char) (attr : Bool) (D rest0 : List Char),
      aac ≠ some '#' → D ≠ [] → D.all is_ascii_digit = true →
      input.drop p0 = '#' :: (D ++ ';' :: rest0) →
      (consume_character_reference ⟨⟨input, p0⟩, buf, errs⟩ aac attr).1 =
        some (specNumPipeline (from_str_radix_u32 D 10))) ∧
    (∀ (input : List Char) (p0 : Nat) (buf : List Char) (errs : List String)
        (aac : Option Char) (attr : Bool) (x : Char) (H rest0 : List Char),
      aac ≠ some '#' → (x = 'x' ∨ x = 'X') → H ≠ [] → H.all is_ascii_hexdigit = true →
      input.drop p0 = '#' :: x :: (H ++ ';' :: rest0) →
      (consume_character_reference ⟨⟨input, p0⟩, buf, errs⟩ aac attr).1 =
        some (specNumPipeline (from_str_radix_u32 H 16))) ∧
    (∀ (ds : List Char) (radix : Nat), 4294967296 ≤ digits_val radix ds →
      from_str_radix_u32 ds radix = 0) := by
  refine ⟨?_, ?_, fun ds radix h => by unfold from_str_radix_u32; rw [if_neg (by omega)]⟩
  · intro input p0 buf errs aac attr D rest0 haac hne hall hdrop
    have hhead : input.get? p0 = some '#' := by
      have hg := get?_drop_eq input p0 0
      rw [hdrop] at hg
      simpa using hg.symm
    rw [ccr_hash ⟨⟨input, p0⟩, buf, errs⟩ aac attr hhead haac]
    have hdrop1 : input.drop (p0 + 1) = D ++ ';' :: rest0 := by
      rw [← List.tail_drop, hdrop]
      rfl
    obtain ⟨d0, D', hD⟩ := List.exists_cons_of_ne_nil hne
    have hd0 : is_ascii_digit d0 = true := by
      have h := hall
      rw [hD, List.all_cons, Bool.and_eq_true] at h
      exact h.1
    have hhead1 : input.get? (p0 + 1) = some d0 := by
      have hg := get?_drop_eq input (p0 + 1) 0
      rw [hdrop1, hD] at hg
      simpa using hg.symm
    rw [cn_dec ⟨⟨input, p0 + 1⟩, ['&', '#'], errs⟩ d0 (digit_not_x d0 hd0) hhead1]
    have htake : (input.drop (p0 + 1)).takeWhile is_ascii_digit = D := by
      rw [hdrop1, takeWhile_all_append _ _ _ hall, List.takeWhile_cons]
      simp [is_ascii_digit]
    have hallF : (input.drop (p0 + 1)).all is_ascii_digit = false := by
      rw [hdrop1]
      exact all_append_cons_ne _ D ';' rest0 (by decide)
    have hsc : input.get? ((p0 + 1) +
        ((input.drop (p0 + 1)).takeWhile is_ascii_digit).length) = some ';' := by
      rw [htake, ← get?_drop_eq, hdrop1]
      exact get?_append_len D ';' rest0
    have hlenne : ((input.drop (p0 + 1)).takeWhile is_ascii_digit).length ≠ 0 := by
      rw [htake]
      simpa using hne
    rw [cnd_ok ⟨⟨input, p0 + 1⟩, ['&', '#'], errs⟩ (p0 + 1) false hallF hsc hlenne]
    show some (String.mk (replace_num (from_str_radix_u32
      ((input.drop (p0 + 1)).takeWhile is_ascii_digit) 10)).1) = _
    rw [htake, replace_num_fst_eq_spec, string_mk_data]
  · intro input p0 buf errs aac attr x H rest0 haac hx hne hall hdrop
    have hhead : input.get? p0 = some '#' := by
      have hg := get?_drop_eq input p0 0
      rw [hdrop] at hg
      simpa using hg.symm
    rw [ccr_hash ⟨⟨input, p0⟩, buf, errs⟩ aac attr hhead haac]
    have hdrop1 : input.drop (p0 + 1) = x :: (H ++ ';' :: rest0) := by
      rw [← List.tail_drop, hdrop]
      rfl
    have hheadx : input.get? (p0 + 1) = some x := by
      have hg := get?_drop_eq input (p0 + 1) 0
      rw [hdrop1] at hg
      simpa using hg.symm
    rw [cn_hex ⟨⟨input, p0 + 1⟩, ['&', '#'], errs⟩ x hx hheadx]
    have hdrop2 : input.drop (p0 + 1 + 1) = H ++ ';' :: rest0 := by
      rw [← List.tail_drop, hdrop1]
      rfl
    have htake : (input.drop (p0 + 1 + 1)).takeWhile is_ascii_hexdigit = H := by
      rw [hdrop2, takeWhile_all_append _ _ _ hall, List.takeWhile_cons]
      simp [is_ascii_hexdigit, is_ascii_digit]
    have hallF : (input.drop (p0 + 1 + 1)).all is_ascii_hexdigit = false := by
      rw [hdrop2]
      exact all_append_cons_ne _ H ';' rest0 (by decide)
    have hsc : input.get? ((p0 + 1 + 1) +
        ((input.drop (p0 + 1 + 1)).takeWhile is_ascii_hexdigit).length) = some ';' := by
      rw [htake, ← get?_drop_eq, hdrop2]
      exact get?_append_len H ';' rest0
    have hlenne : ((input.drop (p0 + 1 + 1)).takeWhile is_ascii_hexdigit).length ≠ 0 := by
      rw [htake]
      simpa using hne
    rw [cnd_ok ⟨⟨input, p0 + 1 + 1⟩, ['&', '#'] ++ [x], errs⟩ (p0 + 1) true hallF hsc hlenne]
    show some (String.mk (replace_num (from_str_radix_u32
      ((input.drop (p0 + 1 + 1)).takeWhile is_ascii_hexdigit) 16)).1) = _
    rw [htake, replace_num_fst_eq_spec, string_mk_data]

theorem claim_C3_witness :
    (((none : Option Char) ≠ some '#') ∧ ((['6', '0'] : List Char) ≠ []) ∧
      ((['6', '0'] : List Char).all is_ascii_digit = true) ∧
      ((['#', '6', '0', ';'] : List Char).drop 0 = '#' :: (['6', '0'] ++ ';' :: []))) ∧
    (consume_character_reference ⟨⟨['#', '6', '0', ';'], 0⟩, [], []⟩ none false).1 =
      some (specNumPipeline (from_str_radix_u32 ['6', '0'] 10)) :=
  ⟨⟨by decide, by decide, by decide, by decide⟩,
   claim_C3_numeric_value.1 ['#', '6', '0', ';'] 0 [] [] none false ['6', '0'] []
     (by decide) (by decide) (by decide) (by decide)⟩

theorem claim_C8_witness :
    (((none : Option Char) ≠ some '#') ∧ ((['#', '1', 'x'] : List Char).get? 0 = some '#') ∧
      (num_good ((['#', '1', 'x'] : List Char).drop 1) = false)) ∧
    ((consume_character_reference ⟨⟨['#', '1', 'x'], 0⟩, [], []⟩ none false).1 = none ∧
     (consume_character_reference ⟨⟨['#', '1', 'x'], 0⟩, [], []⟩ none false).2.stream.pos = 0) :=
  ⟨⟨by decide, by decide, by decide⟩,
   claim_C8_amended.2.2 ['#', '1', 'x'] 0 [] [] none false (by decide) (by decide) (by decide)⟩

end Gosub
